import Mathlib

/-!
Verification of the receiver supervision subsystem of the WHEP-SRT gateway
(`src/receiver.ts`, `src/engine.ts`).  The TypeScript classes are shallowly
embedded: each mutating method and each asynchronous callback becomes a pure
transition function on an explicit state record, and the engine's `Map` of
receivers becomes an association list of references into an explicit store, so
that deleting a map entry can be distinguished from mutating the referenced
receiver object.
-/

namespace WhepSrt

/-- Receiver status, from `RxStatus` in `src/types.ts`. -/
inductive RxStatus where
  | idle
  | running
  | stopped
  | failed
deriving DecidableEq, Repr

/-- One invocation of the injected process spawner,
`this.processSpawner('whep-srt', opts)` in `Receiver.start`. -/
structure SpawnCall where
  cmd : String
  args : List String
deriving DecidableEq, Repr

/-- State of one `Receiver` (fields of the class in `src/receiver.ts`).
`process` holds the pid of the attached child process, handed out from the
`nextPid` counter at each spawn so that the exit observer's identity check
(`this.process === currentProcess`) becomes a pid comparison.
`retryTimeoutHandle` holds the delay the pending restart timer was armed with.
The last three fields are observation logs added by the model: `spawned`
records every spawner invocation, `errorLog` every error-level diagnostic
record flushed from `errorOutput`, and `armedDelays` the delay of every timer
armed by `scheduleRestart`. -/
structure Receiver where
  id : String
  whepURL : String
  srtURL : String
  status : RxStatus
  process : Option Nat
  errorOutput : List String
  retryTimeoutMs : Nat
  retryTimeoutHandle : Option Nat
  intentionalStop : Bool
  disposed : Bool
  nextPid : Nat
  spawned : List SpawnCall
  errorLog : List String
  armedDelays : List Nat
deriving DecidableEq, Repr

/-- `new Receiver(id, whepUrl, srtUrl)` — the constructor in `src/receiver.ts`. -/
def newReceiver (id whepUrl srtUrl : String) : Receiver :=
  { id := id
    whepURL := whepUrl
    srtURL := srtUrl
    status := .idle
    process := none
    errorOutput := []
    retryTimeoutMs := 1000
    retryTimeoutHandle := none
    intentionalStop := false
    disposed := false
    nextPid := 0
    spawned := []
    errorLog := []
    armedDelays := [] }

/-- The JavaScript truthiness test `code && code > 0` applied to the exit
argument `code : number | null` of the exit observer.  `none` models a `null`
exit code, which Node reports when the child was terminated by a signal. -/
def abnormalExit : Option Int → Bool
  | some c => decide (0 < c)
  | none => false

/-- `scheduleRestart` (`src/receiver.ts`): clear any existing handle and arm a
one-shot timer for the current `retryTimeoutMs`; the armed delay is also
recorded in the `armedDelays` log.  The timer's callback is `timerFire`. -/
def Receiver.scheduleRestart (s : Receiver) : Receiver :=
  { s with
      retryTimeoutHandle := some s.retryTimeoutMs
      armedDelays := s.armedDelays ++ [s.retryTimeoutMs] }

/-- The `exit` observer attached in `start` (`src/receiver.ts`), fired when the
process with pid `gen` exits reporting `code` (`none` = killed by a signal).
Stale events from a superseded process are dropped; the current process is
detached; an intentional termination is recorded as `stopped`; a strictly
positive exit code is recorded as `failed`, the accumulated `errorOutput` is
flushed as one error-level record when non-empty, and a restart is scheduled;
every other exit is recorded as `stopped`. -/
def Receiver.processExit (s : Receiver) (gen : Nat) (code : Option Int) : Receiver :=
  if s.process ≠ some gen then s
  else
    let s1 := { s with process := none }
    if s1.intentionalStop then { s1 with status := .stopped }
    else if abnormalExit code then
      let s2 := { s1 with status := .failed }
      let s3 :=
        if s2.errorOutput ≠ [] then
          { s2 with errorLog := s2.errorLog ++ [String.join s2.errorOutput] }
        else s2
      s3.scheduleRestart
    else { s1 with status := .stopped }

/-- The `stderr` data observer attached in `start`: the fragment is collected
only when it comes from the still-current process. -/
def Receiver.stderrData (s : Receiver) (gen : Nat) (d : String) : Receiver :=
  if s.process = some gen then { s with errorOutput := s.errorOutput ++ [d] } else s

/-- `start(isAutoRestart)` (`src/receiver.ts`), executed under the operation
mutex.  When a process is still attached, `start` sets `intentionalStop`,
kills it and awaits its exit; `oldCode` is the exit code that old process
reports — its exit observer runs inside the await and, because
`intentionalStop` is set, records `stopped` regardless of the code.  The final
record update mirrors the source order: clear `errorOutput`, set `status`
to running before spawning, store the new process handle, reset
`intentionalStop`, and attach the observers to the new pid. -/
def Receiver.start (s : Receiver) (isAutoRestart : Bool) (oldCode : Option Int) : Receiver :=
  if s.disposed then s
  else if s.status = .running then s
  else
    let s1 :=
      if !isAutoRestart then
        { s with retryTimeoutMs := 1000, retryTimeoutHandle := none }
      else s
    let s2 :=
      match s1.process with
      | some gen => Receiver.processExit { s1 with intentionalStop := true } gen oldCode
      | none => s1
    { s2 with
        errorOutput := []
        status := .running
        process := some s2.nextPid
        nextPid := s2.nextPid + 1
        intentionalStop := false
        spawned := s2.spawned ++ [⟨"whep-srt", ["-i", s2.whepURL, "-o", s2.srtURL]⟩] }

/-- `stop({doAwait})` (`src/receiver.ts`), executed under the operation mutex.
The retry delay is reset and the restart timer cleared; an attached process is
killed with `intentionalStop` set and its exit awaited (`oldCode` as in
`start`), after which the timer is cleared a second time; the status is then
set to `stopped`.  The `doAwait` polling loop (`waitFor`) only delays the
caller and changes no state, so it does not appear in the transition. -/
def Receiver.stop (s : Receiver) (oldCode : Option Int) : Receiver :=
  let s1 := { s with retryTimeoutMs := 1000, retryTimeoutHandle := none }
  let s2 :=
    match s1.process with
    | some gen =>
        let s3 := Receiver.processExit { s1 with intentionalStop := true } gen oldCode
        { s3 with retryTimeoutHandle := none }
    | none => s1
  { s2 with status := .stopped }

/-- `dispose()` (`src/receiver.ts`), executed under the operation mutex: no-op
when already disposed; otherwise mark disposed first, cancel the restart
timer, kill any attached process (`oldCode` as in `start`), and set the status
to `stopped`. -/
def Receiver.dispose (s : Receiver) (oldCode : Option Int) : Receiver :=
  if s.disposed then s
  else
    let s1 := { s with disposed := true, retryTimeoutHandle := none }
    let s2 :=
      match s1.process with
      | some gen => Receiver.processExit { s1 with intentionalStop := true } gen oldCode
      | none => s1
    { s2 with status := .stopped }

/-- The callback armed by `scheduleRestart`: double `retryTimeoutMs` for the
next occasion, then call `start(true)`.  Firing does not clear
`retryTimeoutHandle` — exactly as the source leaves the stale handle in
place after `setTimeout` has fired. -/
def Receiver.timerFire (s : Receiver) : Receiver :=
  Receiver.start { s with retryTimeoutMs := s.retryTimeoutMs * 2 } true none

/-- All states a `Receiver` can be driven to from construction by its methods
and its asynchronous callbacks.  A restart timer can only fire while a handle
is armed. -/
inductive RxReachable : Receiver → Prop where
  | new (id whepUrl srtUrl : String) : RxReachable (newReceiver id whepUrl srtUrl)
  | startStep {s : Receiver} (b : Bool) (c : Option Int) :
      RxReachable s → RxReachable (s.start b c)
  | stopStep {s : Receiver} (c : Option Int) :
      RxReachable s → RxReachable (s.stop c)
  | disposeStep {s : Receiver} (c : Option Int) :
      RxReachable s → RxReachable (s.dispose c)
  | exitStep {s : Receiver} (gen : Nat) (c : Option Int) :
      RxReachable s → RxReachable (s.processExit gen c)
  | stderrStep {s : Receiver} (gen : Nat) (d : String) :
      RxReachable s → RxReachable (s.stderrData gen d)
  | fireStep {s : Receiver} :
      RxReachable s → s.retryTimeoutHandle ≠ none → RxReachable s.timerFire

/-- A receiver freshly created and started once: pid 0 attached, running. -/
def rxDemo : Receiver :=
  (newReceiver "rx-1" "http://whep/dummy" "srt://0.0.0.0:9000").start false none

/-- `rxDemo` after one abnormal exit: failed, restart timer armed for 1000. -/
def rxFailedDemo : Receiver := rxDemo.processExit 0 (some 1)

/-- `rxFailedDemo` after its restart timer fired: running again on pid 1, with
`retryTimeoutMs` already doubled to 2000. -/
def rxRestartedDemo : Receiver := rxFailedDemo.timerFire

/-- `rxRestartedDemo` disposed: a disposed receiver whose retry delay still
holds the backed-off value 2000. -/
def rxDisposedDemo : Receiver := rxRestartedDemo.dispose none

/-- The backoff trace after the second consecutive abnormal exit. -/
def backoffTrace2 : Receiver := rxRestartedDemo.processExit 1 (some 1)

/-- The backoff trace after the third consecutive abnormal exit: three restart
timers have been armed in total. -/
def backoffTrace3 : Receiver := backoffTrace2.timerFire.processExit 2 (some 1)

/-! ### The operation mutex

`operationMutex` in `src/receiver.ts` is a promise chain: each of `start`,
`stop`, `dispose` (and the auto-restart, which re-enters through `start`)
synchronously swaps in a fresh promise, keeping the previous one, awaits the
previous one, runs its body, and resolves its own promise in a `finally`.
Operations are modelled by their position in the acquisition order: the `i`-th
acquirer may enter its body exactly when the `(i-1)`-th acquirer's promise has
resolved, that is, when that operation has released. -/

/-- Which of the four serialized operations an acquirer is. -/
inductive OpKind where
  | startOp
  | stopOp
  | disposeOp
  | autoRestartOp
deriving DecidableEq, Repr

/-- Phase of one acquirer of the mutex: it has performed the synchronous
acquisition and awaits the previous promise (`waiting`), its body is executing
(`running`), or its `finally` has resolved its promise (`done`). -/
inductive OpPhase where
  | waiting
  | running
  | done
deriving DecidableEq, Repr

/-- State of one receiver's `operationMutex`: `acquired` operations have
performed the synchronous `prevOperation`/`operationMutex` swap, in the order
given by their index; `kind i` and `phase i` describe the `i`-th acquirer
(indices at or above `acquired` are unused and stay `waiting`). -/
structure MutexState where
  acquired : Nat
  kind : Nat → OpKind
  phase : Nat → OpPhase

/-- A fresh receiver's mutex: `operationMutex = Promise.resolve()`, nobody has
acquired. -/
def MutexState.init : MutexState :=
  { acquired := 0, kind := fun _ => OpKind.startOp, phase := fun _ => OpPhase.waiting }

/-- Interleaving semantics of the promise-chain mutex.  `acquire` is the
synchronous swap (no suspension point, so it is atomic); `enterFirst` and
`enterNext` are the resolution of `await prevOperation` — the first acquirer
awaits the initially-resolved promise, every later acquirer awaits the promise
the previous acquirer resolves in its `finally`; `exitOp` is `releaseLock()`
in the `finally`, which the source runs on every exit path of the body,
early returns included. -/
inductive MutexStep : MutexState → MutexState → Prop where
  | acquire (s : MutexState) (k : OpKind) :
      MutexStep s
        { acquired := s.acquired + 1
          kind := Function.update s.kind s.acquired k
          phase := s.phase }
  | enterFirst (s : MutexState) (h : 0 < s.acquired) (hw : s.phase 0 = .waiting) :
      MutexStep s { s with phase := Function.update s.phase 0 .running }
  | enterNext (s : MutexState) (i : Nat) (h : i + 1 < s.acquired)
      (hw : s.phase (i + 1) = .waiting) (hd : s.phase i = .done) :
      MutexStep s { s with phase := Function.update s.phase (i + 1) .running }
  | exitOp (s : MutexState) (i : Nat) (h : i < s.acquired) (hrun : s.phase i = .running) :
      MutexStep s { s with phase := Function.update s.phase i .done }

/-- Mutex states reachable from a fresh receiver. -/
def MutexReachable (s : MutexState) : Prop :=
  Relation.ReflTransGen MutexStep MutexState.init s

/-- Invariant of the promise chain: an acquirer that is no longer waiting has
every earlier acquirer fully released, and indices that have not acquired are
still waiting. -/
def MutexInv (s : MutexState) : Prop :=
  (∀ i j, i < j → j < s.acquired → s.phase j ≠ .waiting → s.phase i = .done) ∧
  (∀ j, s.acquired ≤ j → s.phase j = .waiting)

/-- A concrete mutex history: a `stop` acquires the chain first. -/
def mutexDemo0 : MutexState :=
  { acquired := 1
    kind := Function.update MutexState.init.kind 0 OpKind.stopOp
    phase := MutexState.init.phase }

/-- ... then a `dispose` acquires behind it ... -/
def mutexDemo1 : MutexState :=
  { acquired := 2
    kind := Function.update mutexDemo0.kind 1 OpKind.disposeOp
    phase := mutexDemo0.phase }

/-- ... the `stop` enters its body ... -/
def mutexDemo2 : MutexState :=
  { mutexDemo1 with phase := Function.update mutexDemo1.phase 0 OpPhase.running }

/-- ... the `stop` releases in its `finally` ... -/
def mutexDemo3 : MutexState :=
  { mutexDemo2 with phase := Function.update mutexDemo2.phase 0 OpPhase.done }

/-- ... and the `dispose` enters: the first acquirer is done, the second is
running. -/
def mutexDemo : MutexState :=
  { mutexDemo3 with phase := Function.update mutexDemo3.phase 1 OpPhase.running }

/-! ### The kill protocol and Node's `killed` flag

`killProcess` (`src/receiver.ts`) registers a one-shot `exit` listener that
resolves its promise, sends `SIGINT`, and arms a 2000 ms timeout whose
callback sends `SIGKILL` when `!processToKill.killed`.  Per the Node.js
child_process documentation, `subprocess.killed` is set to true as soon as
`subprocess.kill()` has successfully *sent* a signal; it does not indicate
that the child has terminated. -/

/-- A spawned child process as `killProcess` observes it: whether its `exit`
event has fired, Node's `killed` flag, and the signals delivered to it. -/
structure ProcHandle where
  exited : Bool
  killed : Bool
  signals : List String
deriving DecidableEq, Repr

/-- `subprocess.kill(sig)`: on a live child the signal is sent and the
`killed` flag becomes true; on an already-exited child nothing is delivered. -/
def ProcHandle.kill (p : ProcHandle) (sig : String) : ProcHandle :=
  if p.exited then p else { p with killed := true, signals := p.signals ++ [sig] }

/-- The body of the 2000 ms grace timeout in `killProcess`:
`if (!processToKill.killed) processToKill.kill('SIGKILL')`. -/
def killProcessGraceTimeout (p : ProcHandle) : ProcHandle :=
  if !p.killed then p.kill "SIGKILL" else p

/-- Everything `killProcess` has done to a child that is still alive when the
grace deadline is reached: the initial `kill('SIGINT')`, then the timeout
body. -/
def killProcessAtDeadline (p : ProcHandle) : ProcHandle :=
  killProcessGraceTimeout (p.kill "SIGINT")

/-- The promise returned by `killProcess` is resolved only by the `exit`
listener, so it has resolved exactly when the child's exit event has fired. -/
def killProcessResolved (p : ProcHandle) : Bool :=
  p.exited

/-! ### The engine

The engine's `receivers : Map<string, Receiver>` is embedded as an
association list from id to an index into a store `heap` of receiver states,
so that the model can express what happens to a `Receiver` object after its
map entry is deleted.  Keys are unique because `addReceiver` refuses
duplicates, so deleting a key is embedded as filtering it out. -/

/-- The exceptions `addReceiver` (`src/engine.ts`) can propagate: the two
explicit duplicate-id throws, and a construction failure propagated out of the
`try` block. -/
inductive EngineError where
  | alreadyExists (id : String)
  | creationInProgress (id : String)
  | constructionFailed
deriving DecidableEq, Repr

/-- State of the `Engine` (`src/engine.ts`): the `receivers` map, the
`pendingReceivers` set, and the store of receiver objects the map points
into. -/
structure Engine where
  receivers : List (String × Nat)
  pendingReceivers : List String
  heap : List Receiver
deriving DecidableEq, Repr

/-- `new Engine()`. -/
def Engine.empty : Engine :=
  { receivers := [], pendingReceivers := [], heap := [] }

/-- `addReceiver(id, whepUrl, srtUrl)` (`src/engine.ts`): reject ids already
in the map, then ids currently pending; otherwise mark the id pending, run
the constructor, insert the unit and return it, clearing the pending mark in
a `finally`.  `mk` is the outcome of `new Receiver(...)`: `addReceiver`
itself always passes the constructed receiver (`addReceiver` below), while
`none` embeds the path in which construction throws — the `finally` still
clears the pending mark and the map is left untouched.  The result pairs the
post state with the thrown error or the reference of the inserted unit. -/
def Engine.addReceiverCore (e : Engine) (id : String) (mk : Option Receiver) :
    Engine × Except EngineError Nat :=
  if (e.receivers.lookup id).isSome then (e, .error (.alreadyExists id))
  else if id ∈ e.pendingReceivers then (e, .error (.creationInProgress id))
  else
    let pending1 := e.pendingReceivers ++ [id]
    match mk with
    | some r =>
        ({ receivers := e.receivers ++ [(id, e.heap.length)]
           pendingReceivers := pending1.erase id
           heap := e.heap ++ [r] }, .ok e.heap.length)
    | none => ({ e with pendingReceivers := pending1.erase id }, .error .constructionFailed)

/-- `addReceiver` with the real constructor, which does not throw. -/
def Engine.addReceiver (e : Engine) (id whepUrl srtUrl : String) :
    Engine × Except EngineError Nat :=
  e.addReceiverCore id (some (newReceiver id whepUrl srtUrl))

/-- `removeReceiver(id)` (`src/engine.ts`, dispose-first variant — the one the
repository's API tests exercise with "can delete a receiver that is
running"): no-op when the id is absent; otherwise `await rx.dispose()` on the
referenced receiver, then delete the map entry.  `oldCode` as in
`Receiver.start`. -/
def Engine.removeReceiver (e : Engine) (id : String) (oldCode : Option Int) : Engine :=
  match e.receivers.lookup id with
  | none => e
  | some ref =>
      let heap1 :=
        match e.heap[ref]? with
        | some r => e.heap.set ref (r.dispose oldCode)
        | none => e.heap
      { e with receivers := e.receivers.filter (fun p => p.1 != id), heap := heap1 }

/-- The superseded guarded variant of `removeReceiver` found alongside the
dispose-first one: it deletes only a receiver whose status is in
`[STOPPED, FAILED, IDLE]` and throws (`none`) when the receiver is active. -/
def Engine.removeReceiverGuarded (e : Engine) (id : String) : Option Engine :=
  match e.receivers.lookup id with
  | none => some e
  | some ref =>
      match e.heap[ref]? with
      | none => some e
      | some r =>
          if r.status ∈ [RxStatus.stopped, RxStatus.failed, RxStatus.idle] then
            some { e with receivers := e.receivers.filter (fun p => p.1 != id) }
          else none

/-- `getReceiver(id)` (`src/engine.ts`). -/
def Engine.getReceiver (e : Engine) (id : String) : Option Nat :=
  e.receivers.lookup id

/-- `removeAllReceivers()` (`src/engine.ts`): `this.receivers.clear()` and
nothing else — the pending set, and every `Receiver` object the map used to
point to, are left untouched. -/
def Engine.removeAllReceivers (e : Engine) : Engine :=
  { e with receivers := [] }

/-- An engine holding the single freshly-created receiver `rx-1`. -/
def engineDemo : Engine :=
  (Engine.empty.addReceiver "rx-1" "http://whep/dummy" "srt://0.0.0.0:9000").1

/-! ## Helper lemmas -/

theorem Receiver.processExit_disposed (s : Receiver) (g : Nat) (c : Option Int) :
    (s.processExit g c).disposed = s.disposed := by
  simp only [Receiver.processExit, Receiver.scheduleRestart]
  split_ifs <;> rfl

theorem Receiver.processExit_retryTimeoutMs (s : Receiver) (g : Nat) (c : Option Int) :
    (s.processExit g c).retryTimeoutMs = s.retryTimeoutMs := by
  simp only [Receiver.processExit, Receiver.scheduleRestart]
  split_ifs <;> rfl

theorem Receiver.processExit_spawned (s : Receiver) (g : Nat) (c : Option Int) :
    (s.processExit g c).spawned = s.spawned := by
  simp only [Receiver.processExit, Receiver.scheduleRestart]
  split_ifs <;> rfl

theorem Receiver.processExit_nextPid (s : Receiver) (g : Nat) (c : Option Int) :
    (s.processExit g c).nextPid = s.nextPid := by
  simp only [Receiver.processExit, Receiver.scheduleRestart]
  split_ifs <;> rfl

theorem Receiver.processExit_whepURL (s : Receiver) (g : Nat) (c : Option Int) :
    (s.processExit g c).whepURL = s.whepURL := by
  simp only [Receiver.processExit, Receiver.scheduleRestart]
  split_ifs <;> rfl

theorem Receiver.processExit_srtURL (s : Receiver) (g : Nat) (c : Option Int) :
    (s.processExit g c).srtURL = s.srtURL := by
  simp only [Receiver.processExit, Receiver.scheduleRestart]
  split_ifs <;> rfl

theorem Receiver.start_disposed (s : Receiver) (b : Bool) (c : Option Int) :
    (s.start b c).disposed = s.disposed := by
  simp only [Receiver.start]
  split_ifs <;> try rfl
  all_goals cases hp : s.process <;> simp [hp, Receiver.processExit_disposed]

theorem Receiver.stop_disposed (s : Receiver) (c : Option Int) :
    (s.stop c).disposed = s.disposed := by
  simp only [Receiver.stop]
  cases hp : s.process <;> simp [hp, Receiver.processExit_disposed]

theorem Receiver.dispose_disposed (s : Receiver) (c : Option Int) :
    (s.dispose c).disposed = true := by
  simp only [Receiver.dispose]
  split_ifs with h
  · exact h
  · cases hp : s.process <;> simp [hp, Receiver.processExit_disposed]

theorem Receiver.stderrData_disposed (s : Receiver) (g : Nat) (d : String) :
    (s.stderrData g d).disposed = s.disposed := by
  simp only [Receiver.stderrData]
  split_ifs <;> rfl

theorem Receiver.timerFire_disposed (s : Receiver) :
    s.timerFire.disposed = s.disposed := by
  simp only [Receiver.timerFire]
  rw [Receiver.start_disposed]

/-- Degenerate operations: `start` on a disposed receiver is the identity. -/
theorem Receiver.start_of_disposed (s : Receiver) (b : Bool) (c : Option Int)
    (h : s.disposed = true) : s.start b c = s := by
  simp [Receiver.start, h]

/-- `processExit` with no process attached drops the event. -/
theorem Receiver.processExit_of_none (s : Receiver) (g : Nat) (c : Option Int)
    (h : s.process = none) : s.processExit g c = s := by
  simp [Receiver.processExit, h]

/-- `stderrData` with no process attached drops the fragment. -/
theorem Receiver.stderrData_of_none (s : Receiver) (g : Nat) (d : String)
    (h : s.process = none) : s.stderrData g d = s := by
  simp [Receiver.stderrData, h]

/-- Every reachable disposed receiver has no attached process, no armed
restart timer, and status `stopped` (the `disposed` flag is set only by
`dispose`, which also establishes all three, and every later transition either
ignores the receiver or preserves them). -/
theorem disposed_state {s : Receiver} (h : RxReachable s) (hd : s.disposed = true) :
    s.process = none ∧ s.retryTimeoutHandle = none ∧ s.status = .stopped := by
  induction h with
  | new id whepUrl srtUrl => simp [newReceiver] at hd
  | startStep b c hs ih =>
      rename_i t
      have htd : t.disposed = true := by rw [← Receiver.start_disposed t b c]; exact hd
      rw [Receiver.start_of_disposed t b c htd]
      exact ih htd
  | stopStep c hs ih =>
      rename_i t
      have htd : t.disposed = true := by rw [← Receiver.stop_disposed t c]; exact hd
      obtain ⟨hp, hh, hst⟩ := ih htd
      simp [Receiver.stop, hp]
  | disposeStep c hs ih =>
      rename_i t
      by_cases htd : t.disposed = true
      · rw [show t.dispose c = t from by simp [Receiver.dispose, htd]]
        exact ih htd
      · cases hp : t.process with
        | some g => simp [Receiver.dispose, htd, hp, Receiver.processExit]
        | none => simp [Receiver.dispose, htd, hp]
  | exitStep g c hs ih =>
      rename_i t
      have htd : t.disposed = true := by rw [← Receiver.processExit_disposed t g c]; exact hd
      obtain ⟨hp, hh, hst⟩ := ih htd
      rw [Receiver.processExit_of_none t g c hp]
      exact ⟨hp, hh, hst⟩
  | stderrStep g d hs ih =>
      rename_i t
      have htd : t.disposed = true := by rw [← Receiver.stderrData_disposed t g d]; exact hd
      obtain ⟨hp, hh, hst⟩ := ih htd
      rw [Receiver.stderrData_of_none t g d hp]
      exact ⟨hp, hh, hst⟩
  | fireStep hs harm ih =>
      rename_i t
      have htd : t.disposed = true := by rw [← Receiver.timerFire_disposed t]; exact hd
      obtain ⟨hp, hh, hst⟩ := ih htd
      exact absurd hh harm

theorem mutexInv_init : MutexInv MutexState.init := by
  constructor
  · intro i j _ hj _
    exact absurd hj (Nat.not_lt_zero j)
  · intro j _
    rfl

theorem mutexInv_step {s t : MutexState} (st : MutexStep s t) (inv : MutexInv s) :
    MutexInv t := by
  obtain ⟨h1, h2⟩ := inv
  cases st with
  | acquire k =>
      refine ⟨?_, ?_⟩
      · intro i j hij hj hw
        dsimp only at hj hw ⊢
        rcases Nat.lt_or_ge j s.acquired with hjs | hjs
        · exact h1 i j hij hjs hw
        · exact absurd (h2 j hjs) hw
      · intro j hj
        dsimp only at hj ⊢
        exact h2 j (Nat.le_of_succ_le hj)
  | enterFirst h hw =>
      refine ⟨?_, ?_⟩
      · intro i j hij hj hnw
        dsimp only at hj hnw ⊢
        have hj0 : j ≠ 0 := by omega
        rw [Function.update_noteq hj0] at hnw
        have hid : s.phase i = .done := h1 i j hij hj hnw
        rcases Nat.eq_zero_or_pos i with hi0 | hi0
        · rw [hi0, hw] at hid
          cases hid
        · have hi0' : i ≠ 0 := by omega
          rw [Function.update_noteq hi0']
          exact hid
      · intro j hj
        dsimp only at hj ⊢
        have hj0 : j ≠ 0 := by omega
        rw [Function.update_noteq hj0]
        exact h2 j hj
  | enterNext i h hw hd =>
      refine ⟨?_, ?_⟩
      · intro a b hab hb hnw
        dsimp only at hb hnw ⊢
        by_cases hbi : b = i + 1
        · have hai : a ≠ i + 1 := by omega
          rw [Function.update_noteq hai]
          rcases Nat.lt_or_ge a i with hai' | hai'
          · exact h1 a i hai' (by omega) (by rw [hd]; simp)
          · have haeq : a = i := by omega
            rw [haeq]
            exact hd
        · rw [Function.update_noteq hbi] at hnw
          have had : s.phase a = .done := h1 a b hab hb hnw
          by_cases hai : a = i + 1
          · rw [hai, hw] at had
            cases had
          · rw [Function.update_noteq hai]
            exact had
      · intro j hj
        dsimp only at hj ⊢
        have hji : j ≠ i + 1 := by omega
        rw [Function.update_noteq hji]
        exact h2 j hj
  | exitOp i h hrun =>
      refine ⟨?_, ?_⟩
      · intro a b hab hb hnw
        dsimp only at hb hnw ⊢
        by_cases hbi : b = i
        · have hai : a ≠ i := by omega
          rw [Function.update_noteq hai]
          exact h1 a i (by omega) h (by rw [hrun]; simp)
        · rw [Function.update_noteq hbi] at hnw
          have had : s.phase a = .done := h1 a b hab hb hnw
          by_cases hai : a = i
          · rw [hai, hrun] at had
            cases had
          · rw [Function.update_noteq hai]
            exact had
      · intro j hj
        dsimp only at hj ⊢
        have hji : j ≠ i := by omega
        rw [Function.update_noteq hji]
        exact h2 j hj

theorem mutexReachable_inv {s : MutexState} (h : MutexReachable s) : MutexInv s := by
  induction h with
  | refl => exact mutexInv_init
  | tail _ st ih => exact mutexInv_step st ih

/-- Looking up a key in a list from which it was filtered out yields nothing
(deletion of a `Map` key, embedded as a filter over unique keys). -/
theorem lookup_filter_ne (l : List (String × Nat)) (id : String) :
    (l.filter (fun p => p.1 != id)).lookup id = none := by
  induction l with
  | nil => rfl
  | cons hd tl ih =>
      obtain ⟨k, v⟩ := hd
      rw [List.filter_cons]
      by_cases h : k = id
      · simp [h, ih]
      · have hk : (id == k) = false := by
          simp [Ne.symm h]
        simp [h, List.lookup_cons, hk, ih]

theorem mutexDemo_reachable : MutexReachable mutexDemo := by
  have h1 : MutexStep MutexState.init mutexDemo0 :=
    MutexStep.acquire MutexState.init OpKind.stopOp
  have h2 : MutexStep mutexDemo0 mutexDemo1 :=
    MutexStep.acquire mutexDemo0 OpKind.disposeOp
  have h3 : MutexStep mutexDemo1 mutexDemo2 :=
    MutexStep.enterFirst mutexDemo1 (by decide) rfl
  have h4 : MutexStep mutexDemo2 mutexDemo3 :=
    MutexStep.exitOp mutexDemo2 0 (by decide) rfl
  have h5 : MutexStep mutexDemo3 mutexDemo :=
    MutexStep.enterNext mutexDemo3 0 (by decide) rfl rfl
  exact Relation.ReflTransGen.tail
    (Relation.ReflTransGen.tail
      (Relation.ReflTransGen.tail
        (Relation.ReflTransGen.tail
          (Relation.ReflTransGen.tail Relation.ReflTransGen.refl h1) h2) h3) h4) h5

/-! ## Claims -/

/-- C1: In every reachable history of a receiver's `operationMutex`, the
bodies of the four mutating operations {start, stop, dispose, auto-restart}
are mutually exclusive and FIFO-ordered: any two acquirers whose bodies are
executing are the same acquirer, every operation that acquired earlier has
already run to completion and released, and the running operation can always
reach its release (the `finally` on every exit path is the `exitOp`
transition, which is enabled whenever a body is running). -/
theorem operationMutex_serializes (s : MutexState) (hr : MutexReachable s)
    (i j k : Nat) (hi : i < s.acquired) (hj : j < s.acquired)
    (hri : s.phase i = .running) (hrj : s.phase j = .running) (hk : k < i) :
    i = j ∧ s.phase k = .done ∧
      MutexStep s { s with phase := Function.update s.phase i .done } := by
  obtain ⟨h1, _⟩ := mutexReachable_inv hr
  have hij : i = j := by
    rcases Nat.lt_trichotomy i j with hlt | heq | hgt
    · have hd := h1 i j hlt hj (by rw [hrj]; simp)
      rw [hri] at hd
      cases hd
    · exact heq
    · have hd := h1 j i hgt hi (by rw [hri]; simp)
      rw [hrj] at hd
      cases hd
  refine ⟨hij, ?_, MutexStep.exitOp s i hi hri⟩
  exact h1 k i hk hi (by rw [hri]; simp)

/-- C1 witness: in the concrete history `mutexDemo` (stop acquired, dispose
acquired, stop ran and released, dispose running), the running acquirer is
unique, the earlier acquirer is done, and the release step is enabled. -/
theorem operationMutex_serializes_witness :
    1 = 1 ∧ mutexDemo.phase 0 = .done ∧
      MutexStep mutexDemo { mutexDemo with phase := Function.update mutexDemo.phase 1 .done } :=
  operationMutex_serializes mutexDemo mutexDemo_reachable 1 1 0
    (by decide) (by decide) rfl rfl (by decide)

/-- C2 (amended): for an exit event of the current process when intentional
termination is not flagged: an exit code strictly greater than zero sets the
status to `failed`, detaches the process, flushes the accumulated error
buffer as one diagnostic record when it is non-empty (an empty buffer
produces no record), and arms the restart scheduler for the current retry
delay; any other exit — code 0, or a null code as reported for termination by
a signal — sets the status to `stopped` and schedules no restart. -/
theorem exit_observer_classification (s : Receiver) (gen : Nat) (code : Option Int)
    (hcur : s.process = some gen) (hint : s.intentionalStop = false) :
    (abnormalExit code = true →
       (s.processExit gen code).status = .failed ∧
       (s.processExit gen code).process = none ∧
       (s.processExit gen code).retryTimeoutHandle = some s.retryTimeoutMs ∧
       (s.processExit gen code).armedDelays = s.armedDelays ++ [s.retryTimeoutMs] ∧
       (s.errorOutput ≠ [] →
          (s.processExit gen code).errorLog = s.errorLog ++ [String.join s.errorOutput]) ∧
       (s.errorOutput = [] → (s.processExit gen code).errorLog = s.errorLog)) ∧
    (abnormalExit code = false →
       (s.processExit gen code).status = .stopped ∧
       (s.processExit gen code).process = none ∧
       (s.processExit gen code).retryTimeoutHandle = s.retryTimeoutHandle ∧
       (s.processExit gen code).armedDelays = s.armedDelays ∧
       (s.processExit gen code).errorLog = s.errorLog) := by
  constructor
  · intro hab
    by_cases he : s.errorOutput = [] <;>
      simp [Receiver.processExit, Receiver.scheduleRestart, hcur, hint, hab, he]
  · intro hab
    simp [Receiver.processExit, hcur, hint, hab]

/-- C2 counterexample: a started receiver with one collected stderr fragment
whose process is terminated by a signal.  Node reports a null exit code — per
the claim an abnormal termination ("any termination other than a clean exit
with code 0, including termination by signal") — yet the exit observer
records `stopped`, not `failed`, and invokes no restart scheduling. -/
theorem exit_observer_signal_counterexample :
    (rxDemo.stderrData 0 "connect failed").process = some 0 ∧
    (rxDemo.stderrData 0 "connect failed").intentionalStop = false ∧
    (none : Option Int) ≠ some 0 ∧
    ((rxDemo.stderrData 0 "connect failed").processExit 0 none).status = .stopped ∧
    ((rxDemo.stderrData 0 "connect failed").processExit 0 none).status ≠ .failed ∧
    ((rxDemo.stderrData 0 "connect failed").processExit 0 none).retryTimeoutHandle = none ∧
    ((rxDemo.stderrData 0 "connect failed").processExit 0 none).armedDelays = [] := by
  decide

/-- C2 witness: the amended classification applied to a started receiver with
one collected stderr fragment exiting with code 1. -/
theorem exit_observer_classification_witness :
    ((rxDemo.stderrData 0 "connect failed").processExit 0 (some 1)).status = .failed :=
  ((exit_observer_classification (rxDemo.stderrData 0 "connect failed") 0 (some 1)
      (by decide) (by decide)).1 (by decide)).1

/-- C3 (code bug): termination of a child that is still alive at the 2000 ms
grace deadline.  `SIGINT` is sent first, which makes Node set the `killed`
flag immediately, so the timeout guard `!processToKill.killed` is false and
`SIGKILL` is never sent — contradicting the claim and the source's own
"Graceful shutdown timeout, sending SIGKILL" log line.  The `killProcess`
promise also stays unresolved, since only the exit event resolves it. -/
theorem killProcess_never_escalates :
    (killProcessAtDeadline ⟨false, false, []⟩).signals = ["SIGINT"] ∧
    "SIGKILL" ∉ (killProcessAtDeadline ⟨false, false, []⟩).signals ∧
    killProcessResolved (killProcessAtDeadline ⟨false, false, []⟩) = false := by
  decide

/-- `dispose` on any reachable receiver leaves no process, no armed timer, the
disposed flag set, and status `stopped` — directly by computation when the
receiver was not yet disposed, and by `disposed_state` when it was. -/
theorem dispose_clears {r : Receiver} (hreach : RxReachable r) (c : Option Int) :
    (r.dispose c).process = none ∧ (r.dispose c).retryTimeoutHandle = none ∧
    (r.dispose c).disposed = true ∧ (r.dispose c).status = .stopped := by
  by_cases hd : r.disposed = true
  · have heq : r.dispose c = r := by simp [Receiver.dispose, hd]
    obtain ⟨hp, hh, hst⟩ := disposed_state hreach hd
    rw [heq]
    exact ⟨hp, hh, hd, hst⟩
  · cases hp : r.process with
    | some g =>
        refine ⟨?_, ?_, ?_, ?_⟩ <;> simp [Receiver.dispose, hd, hp, Receiver.processExit]
    | none =>
        refine ⟨?_, ?_, ?_, ?_⟩ <;> simp [Receiver.dispose, hd, hp]

/-- C4: `removeReceiver(id)` is a no-op when `id` is absent; when `id` is
present it disposes the referenced receiver before deleting the map entry —
afterwards the stored receiver has no attached process, no armed restart
timer, is marked disposed and stopped, and the id no longer resolves.  The
operation is total (it returns an `Engine`, never an error), whatever the
receiver's status. -/
theorem removeReceiver_disposes (e : Engine) (id : String) (c : Option Int)
    (ref : Nat) (r : Receiver)
    (href : e.receivers.lookup id = some ref) (hr : e.heap[ref]? = some r)
    (hreach : RxReachable r) :
    (∀ e2 : Engine, e2.receivers.lookup id = none → e2.removeReceiver id c = e2) ∧
    (e.removeReceiver id c).receivers.lookup id = none ∧
    (e.removeReceiver id c).heap[ref]? = some (r.dispose c) ∧
    (r.dispose c).process = none ∧
    (r.dispose c).retryTimeoutHandle = none ∧
    (r.dispose c).disposed = true ∧
    (r.dispose c).status = .stopped := by
  obtain ⟨hp, hh, hflag, hst⟩ := dispose_clears hreach c
  refine ⟨?_, ?_, ?_, hp, hh, hflag, hst⟩
  · intro e2 h
    simp [Engine.removeReceiver, h]
  · simp [Engine.removeReceiver, href, hr, lookup_filter_ne]
  · have hlen : ref < e.heap.length := (List.getElem?_eq_some_iff.mp hr).1
    simp [Engine.removeReceiver, href, hr, List.getElem?_set_self hlen]

/-- C4 witness: removing the present receiver `rx-1` from the one-entry
engine `engineDemo`. -/
theorem removeReceiver_disposes_witness :
    (engineDemo.removeReceiver "rx-1" none).receivers.lookup "rx-1" = none :=
  (removeReceiver_disposes engineDemo "rx-1" none 0
      (newReceiver "rx-1" "http://whep/dummy" "srt://0.0.0.0:9000")
      (by decide) (by decide)
      (RxReachable.new "rx-1" "http://whep/dummy" "srt://0.0.0.0:9000")).2.1

theorem rxDisposedDemo_reachable : RxReachable rxDisposedDemo :=
  RxReachable.disposeStep none
    (RxReachable.fireStep
      (RxReachable.exitStep 0 (some 1)
        (RxReachable.startStep false none
          (RxReachable.new "rx-1" "http://whep/dummy" "srt://0.0.0.0:9000")))
      (by decide))

/-- C5 (amended): on a disposed receiver, `start` — and with it the
timer-driven auto-restart, which re-enters through `start(true)` — is
silently ignored and leaves the state unchanged; moreover a reachable
disposed receiver has no attached process and no armed restart timer, so no
auto-restart can even fire.  `stop`, however, is not guarded by the disposed
flag: it still executes, and its only effect is to reset the retry delay to
the base value (the timer slot is already clear and the status already
`stopped`); it spawns nothing and returns without error. -/
theorem disposed_unit_operations (s : Receiver) (b : Bool) (c c2 : Option Int)
    (hreach : RxReachable s) (hd : s.disposed = true) :
    s.start b c = s ∧
    s.process = none ∧ s.retryTimeoutHandle = none ∧
    s.stop c2 =
      { s with retryTimeoutMs := 1000, retryTimeoutHandle := none, status := .stopped } := by
  obtain ⟨hp, hh, hst⟩ := disposed_state hreach hd
  refine ⟨Receiver.start_of_disposed s b c hd, hp, hh, ?_⟩
  simp [Receiver.stop, hp]

/-- C5 counterexample: `rxDisposedDemo` is disposed with a backed-off retry
delay of 2000; a subsequent `stop` is not ignored — it mutates the state,
resetting the retry delay to 1000. -/
theorem disposed_stop_counterexample :
    rxDisposedDemo.disposed = true ∧
    rxDisposedDemo.retryTimeoutMs = 2000 ∧
    (rxDisposedDemo.stop none).retryTimeoutMs = 1000 ∧
    rxDisposedDemo.stop none ≠ rxDisposedDemo := by
  decide

/-- C5 witness: the amended statement applied to the concrete disposed
receiver `rxDisposedDemo`. -/
theorem disposed_unit_operations_witness :
    rxDisposedDemo.start true none = rxDisposedDemo ∧
    rxDisposedDemo.process = none ∧ rxDisposedDemo.retryTimeoutHandle = none ∧
    rxDisposedDemo.stop none =
      { rxDisposedDemo with
          retryTimeoutMs := 1000, retryTimeoutHandle := none, status := .stopped } :=
  disposed_unit_operations rxDisposedDemo true none none rxDisposedDemo_reachable (by decide)

/-- A `start` that passes the disposed/running guards ends running, with a
process attached, having invoked the spawner exactly once more, with the
`whep-srt` command and the option list built from the receiver's two URLs. -/
theorem Receiver.start_fields (s : Receiver) (b : Bool) (c : Option Int)
    (hd : s.disposed = false) (hnr : s.status ≠ .running) :
    (s.start b c).status = .running ∧
    (s.start b c).process.isSome = true ∧
    (s.start b c).spawned =
      s.spawned ++ [⟨"whep-srt", ["-i", s.whepURL, "-o", s.srtURL]⟩] ∧
    (s.start b c).disposed = false := by
  cases b <;> cases hp : s.process <;>
    simp [Receiver.start, hd, hnr, hp, Receiver.processExit_spawned,
      Receiver.processExit_whepURL, Receiver.processExit_srtURL,
      Receiver.processExit_disposed]

/-- A `start` on a receiver that is already running (and not disposed) is the
identity. -/
theorem Receiver.start_of_running (s : Receiver) (b : Bool) (c : Option Int)
    (hd : s.disposed = false) (hr : s.status = .running) : s.start b c = s := by
  simp [Receiver.start, hd, hr]

/-- A manual `start` that passes the guards resets the retry delay to the
base value. -/
theorem Receiver.start_manual_retry (s : Receiver) (c : Option Int)
    (hd : s.disposed = false) (hnr : s.status ≠ .running) :
    (s.start false c).retryTimeoutMs = 1000 := by
  cases hp : s.process <;>
    simp [Receiver.start, hd, hnr, hp, Receiver.processExit_retryTimeoutMs]

/-- An automatic `start` never touches the retry delay. -/
theorem Receiver.start_auto_retry (s : Receiver) (c : Option Int) :
    (s.start true c).retryTimeoutMs = s.retryTimeoutMs := by
  by_cases hd : s.disposed = true
  · simp [Receiver.start, hd]
  · by_cases hr : s.status = .running
    · simp [Receiver.start, hd, hr]
    · cases hp : s.process <;>
        simp [Receiver.start, hd, hr, hp, Receiver.processExit_retryTimeoutMs]

/-- `stop` always resets the retry delay to the base value. -/
theorem Receiver.stop_retry (s : Receiver) (c : Option Int) :
    (s.stop c).retryTimeoutMs = 1000 := by
  cases hp : s.process <;>
    simp [Receiver.stop, hp, Receiver.processExit_retryTimeoutMs]

/-- C6 (amended): starting from the base retry delay, three consecutive
automatic restarts after failures are scheduled with delays 1000, 2000, 4000
— the ratio 1:2:4 of the base delay; `scheduleRestart` always arms the timer
for the current `retryTimeoutMs`; the delay is doubled exactly when the timer
fires, and by nothing else (the exit observer never changes it); any manual
`stop` resets it to the base value; and a manual `start` resets it to the
base value whenever the start is not ignored by the disposed/running
guards (a manual `start` absorbed by those guards leaves it untouched). -/
theorem backoff_schedule (s : Receiver) (c : Option Int)
    (hnd : s.disposed = false) (hnr : s.status ≠ .running) :
    backoffTrace3.armedDelays = [1000, 2000, 4000] ∧
    (∀ t : Receiver, t.scheduleRestart.retryTimeoutHandle = some t.retryTimeoutMs ∧
        t.scheduleRestart.armedDelays = t.armedDelays ++ [t.retryTimeoutMs]) ∧
    (∀ t : Receiver, t.timerFire.retryTimeoutMs = t.retryTimeoutMs * 2) ∧
    (∀ (t : Receiver) (g : Nat) (c2 : Option Int),
        (t.processExit g c2).retryTimeoutMs = t.retryTimeoutMs) ∧
    (∀ (t : Receiver) (c2 : Option Int), (t.stop c2).retryTimeoutMs = 1000) ∧
    (s.start false c).retryTimeoutMs = 1000 := by
  refine ⟨by decide, ?_, ?_, ?_, ?_, Receiver.start_manual_retry s c hnd hnr⟩
  · intro t
    exact ⟨rfl, rfl⟩
  · intro t
    simp only [Receiver.timerFire]
    rw [Receiver.start_auto_retry]
  · intro t g c2
    exact Receiver.processExit_retryTimeoutMs t g c2
  · intro t c2
    exact Receiver.stop_retry t c2

/-- C6 counterexample: after one automatic restart the unit is running with a
backed-off retry delay of 2000; a manual `start()` — absorbed by the
idempotence guard on a running unit — does not reset the retry delay to the
base value, refuting "any manual start ... resets retryDelay to the base
value" as stated. -/
theorem manual_start_reset_counterexample :
    rxRestartedDemo.status = .running ∧
    rxRestartedDemo.retryTimeoutMs = 2000 ∧
    (rxRestartedDemo.start false none).retryTimeoutMs = 2000 ∧
    (rxRestartedDemo.start false none).retryTimeoutMs ≠ 1000 := by
  decide

/-- C6 witness: the amended backoff statement applied to the concrete failed
receiver `rxFailedDemo`. -/
theorem backoff_schedule_witness :
    (rxFailedDemo.start false none).retryTimeoutMs = 1000 :=
  (backoff_schedule rxFailedDemo none (by decide) (by decide)).2.2.2.2.2

/-- C7: `start()` is idempotent on a running unit: a `start` on a
(non-disposed) running unit changes nothing, and after a `start` from any
non-running state the unit is running with one attached process, the spawner
was invoked exactly once more, and an immediately following second `start`
changes nothing — in particular it spawns nothing, so the two calls produce
exactly one live process. -/
theorem start_idempotent (s : Receiver) (c1 c2 : Option Int) (hd : s.disposed = false) :
    (s.status = .running → s.start false c1 = s) ∧
    (s.status ≠ .running →
      (s.start false c1).start false c2 = s.start false c1 ∧
      (s.start false c1).status = .running ∧
      (s.start false c1).process.isSome = true ∧
      (s.start false c1).spawned.length = s.spawned.length + 1 ∧
      ((s.start false c1).start false c2).spawned.length = s.spawned.length + 1) := by
  refine ⟨fun hr => Receiver.start_of_running s false c1 hd hr, fun hnr => ?_⟩
  obtain ⟨hst, hproc, hsp, hdisp⟩ := Receiver.start_fields s false c1 hd hnr
  have hid : (s.start false c1).start false c2 = s.start false c1 :=
    Receiver.start_of_running (s.start false c1) false c2 hdisp hst
  have hlen : (s.start false c1).spawned.length = s.spawned.length + 1 := by
    rw [hsp]
    simp
  exact ⟨hid, hst, hproc, hlen, by rw [hid, hlen]⟩

/-- C7 witness: two immediate `start` calls on a fresh receiver. -/
theorem start_idempotent_witness :
    ((newReceiver "rx-1" "http://whep/dummy" "srt://0.0.0.0:9000").start false none).start
        false none =
      (newReceiver "rx-1" "http://whep/dummy" "srt://0.0.0.0:9000").start false none :=
  ((start_idempotent (newReceiver "rx-1" "http://whep/dummy" "srt://0.0.0.0:9000")
      none none (by decide)).2 (by decide)).1

/-- C9 (amended): every spawn of the external worker launches it as
`whep-srt` with the four-element option list `['-i', source, '-o', sink]` —
the source endpoint (as the value of the `-i` flag) preceding the sink
endpoint (as the value of the `-o` flag), not as two bare positional
arguments. -/
theorem spawn_invocation (s : Receiver) (b : Bool) (c : Option Int)
    (hd : s.disposed = false) (hnr : s.status ≠ .running) :
    (s.start b c).spawned =
      s.spawned ++ [⟨"whep-srt", ["-i", s.whepURL, "-o", s.srtURL]⟩] :=
  (Receiver.start_fields s b c hd hnr).2.2.1

/-- C9 counterexample: the single spawn performed by starting a fresh
receiver passes four arguments led by the `-i` flag — not exactly the two
positional endpoint arguments the claim states. -/
theorem spawn_args_counterexample :
    rxDemo.spawned.length = 1 ∧
    (rxDemo.spawned.headD ⟨"", []⟩).args =
      ["-i", "http://whep/dummy", "-o", "srt://0.0.0.0:9000"] ∧
    (rxDemo.spawned.headD ⟨"", []⟩).args.length = 4 ∧
    (rxDemo.spawned.headD ⟨"", []⟩).args ≠
      ["http://whep/dummy", "srt://0.0.0.0:9000"] := by
  decide

/-- C9 witness: the amended spawn contract applied to a fresh receiver. -/
theorem spawn_invocation_witness :
    ((newReceiver "rx-1" "http://whep/dummy" "srt://0.0.0.0:9000").start false none).spawned =
      (newReceiver "rx-1" "http://whep/dummy" "srt://0.0.0.0:9000").spawned ++
        [⟨"whep-srt", ["-i", "http://whep/dummy", "-o", "srt://0.0.0.0:9000"]⟩] :=
  spawn_invocation (newReceiver "rx-1" "http://whep/dummy" "srt://0.0.0.0:9000")
    false none (by decide) (by decide)

/-- Marking an id pending and deleting it in the `finally` restores the
original pending set, since the guard ensured the id was not pending. -/
theorem erase_append_self (l : List String) (id : String) (h : id ∉ l) :
    (l ++ [id]).erase id = l := by
  rw [List.erase_append_right _ h, List.erase_cons_head, List.append_nil]

/-- C8: `addReceiver(id, ...)` fails with the already-exists error when the id
is in the map and with the creation-in-progress error when the id is pending,
both times leaving the state untouched; otherwise it inserts the freshly
constructed unit at a new reference, returns that reference, and restores the
pending set — also on the path where construction throws, in which case the
map is untouched and the failure propagates. -/
theorem addReceiver_spec (e : Engine) (id : String) (mk : Option Receiver) :
    ((e.receivers.lookup id).isSome = true →
        e.addReceiverCore id mk = (e, .error (.alreadyExists id))) ∧
    ((e.receivers.lookup id).isSome = false → id ∈ e.pendingReceivers →
        e.addReceiverCore id mk = (e, .error (.creationInProgress id))) ∧
    ((e.receivers.lookup id).isSome = false → id ∉ e.pendingReceivers →
      (∀ r : Receiver, mk = some r →
          e.addReceiverCore id mk =
            ({ receivers := e.receivers ++ [(id, e.heap.length)]
               pendingReceivers := e.pendingReceivers
               heap := e.heap ++ [r] }, .ok e.heap.length)) ∧
      (mk = none → e.addReceiverCore id mk = (e, .error .constructionFailed))) := by
  refine ⟨?_, ?_, ?_⟩
  · intro h
    simp [Engine.addReceiverCore, h]
  · intro h1 h2
    simp [Engine.addReceiverCore, h1, h2]
  · intro h1 h2
    constructor
    · intro r hmk
      subst hmk
      simp [Engine.addReceiverCore, h1, h2, erase_append_self e.pendingReceivers id h2]
    · intro hmk
      subst hmk
      simp [Engine.addReceiverCore, h1, h2, erase_append_self e.pendingReceivers id h2]

/-- C8 witness: creating `rx-1` in the empty engine. -/
theorem addReceiver_spec_witness :
    Engine.empty.addReceiverCore "rx-1"
        (some (newReceiver "rx-1" "http://whep/dummy" "srt://0.0.0.0:9000")) =
      ({ receivers := [("rx-1", 0)]
         pendingReceivers := []
         heap := [newReceiver "rx-1" "http://whep/dummy" "srt://0.0.0.0:9000"] },
        .ok 0) :=
  ((addReceiver_spec Engine.empty "rx-1"
        (some (newReceiver "rx-1" "http://whep/dummy" "srt://0.0.0.0:9000"))).2.2
      (by decide) (List.not_mem_nil "rx-1")).1
    (newReceiver "rx-1" "http://whep/dummy" "srt://0.0.0.0:9000") rfl

/-- C10: `removeAllReceivers()` empties the receiver map and changes nothing
else: the pending set is untouched and the store of receiver objects — each
one's status, attached process, armed restart timer — is byte-for-byte the
one from before, entry by entry, so a live worker process or a pending
auto-restart of a formerly registered unit keeps running after removal. -/
theorem removeAllReceivers_frame (e : Engine) :
    (e.removeAllReceivers).receivers = [] ∧
    (e.removeAllReceivers).heap = e.heap ∧
    (e.removeAllReceivers).pendingReceivers = e.pendingReceivers ∧
    ∀ ref : Nat, (e.removeAllReceivers).heap[ref]? = e.heap[ref]? :=
  ⟨rfl, rfl, rfl, fun _ => rfl⟩

end WhepSrt
